import Mathlib

/-!
Verification development for the client analytics aggregation engine of the
`comisiones-dls` CRM (the computation embedded in
`src/components/analytics/ClientDetailView.tsx` and the period-window
computation of `src/components/analytics/VisitPrepDashboard.tsx`).

Numbers are modelled as rationals (the source works on JS numbers; all the
arithmetic the claims concern is addition, subtraction, multiplication and
division, which the rational model reproduces exactly).  Dates are modelled
at day granularity as (year, month, day) triples; the date-fns operations
used by the source (`subMonths`, `subQuarters`, `subYears`, `startOfMonth`,
`endOfMonth`, `isWithinInterval`, `differenceInDays`, date comparison) are
reimplemented on this model with their documented semantics (calendar month
arithmetic with day-of-month clamping, proleptic Gregorian calendar).
-/

set_option maxRecDepth 4000

namespace CRM

/-- Calendar date at day granularity, mirroring the `Date` values the source
manipulates (invoice dates are ISO `yyyy-mm-dd` strings parsed with
`parseISO`). -/
structure JSDate where
  year : Int
  month : Int
  day : Int
deriving DecidableEq, Repr

/-- Gregorian leap-year rule. -/
def isLeapYear (y : Int) : Bool :=
  (y % 4 == 0 && y % 100 != 0) || y % 400 == 0

/-- Number of days of month `m` (1..12) of year `y`. -/
def daysInMonth (y m : Int) : Int :=
  if m = 1 then 31
  else if m = 2 then (if isLeapYear y then 29 else 28)
  else if m = 3 then 31
  else if m = 4 then 30
  else if m = 5 then 31
  else if m = 6 then 30
  else if m = 7 then 31
  else if m = 8 then 31
  else if m = 9 then 30
  else if m = 10 then 31
  else if m = 11 then 30
  else 31

/-- Absolute month counter: `year * 12 + (month - 1)`. -/
def monthIndex (d : JSDate) : Int := d.year * 12 + (d.month - 1)

/-- date-fns `subMonths`: move `n` months back keeping the day-of-month,
clamped to the length of the target month.  `subQuarters d 1 = subMonths d 3`
and `subYears d 1 = subMonths d 12`, so those two source helpers are spelled
with `subMonths` here. -/
def subMonths (d : JSDate) (n : Int) : JSDate :=
  let mi := monthIndex d - n
  let y := mi / 12
  let m := mi % 12 + 1
  ⟨y, m, min d.day (daysInMonth y m)⟩

/-- date-fns `startOfMonth`. -/
def startOfMonth (d : JSDate) : JSDate := ⟨d.year, d.month, 1⟩

/-- date-fns `endOfMonth`. -/
def endOfMonth (d : JSDate) : JSDate := ⟨d.year, d.month, daysInMonth d.year d.month⟩

/-- Chronological comparison of dates (JS `Date` comparison), lexicographic
on (year, month, day) for calendar dates. -/
def dateLe (a b : JSDate) : Bool :=
  decide (a.year < b.year) ||
    (decide (a.year = b.year) &&
      (decide (a.month < b.month) ||
        (decide (a.month = b.month) && decide (a.day ≤ b.day))))

/-- Strict chronological comparison of dates. -/
def dateLt (a b : JSDate) : Bool :=
  decide (a.year < b.year) ||
    (decide (a.year = b.year) &&
      (decide (a.month < b.month) ||
        (decide (a.month = b.month) && decide (a.day < b.day))))

/-- date-fns `isWithinInterval` (both boundaries inclusive). -/
def isWithinInterval (d s e : JSDate) : Bool :=
  dateLe s d && dateLe d e

/-- Days from the first of the year to the first of month `m` of year `y`. -/
def daysBeforeMonth (y m : Int) : Int :=
  (if 2 ≤ m then 31 else 0) +
  (if 3 ≤ m then (if isLeapYear y then 29 else 28) else 0) +
  (if 4 ≤ m then 31 else 0) +
  (if 5 ≤ m then 30 else 0) +
  (if 6 ≤ m then 31 else 0) +
  (if 7 ≤ m then 30 else 0) +
  (if 8 ≤ m then 31 else 0) +
  (if 9 ≤ m then 31 else 0) +
  (if 10 ≤ m then 30 else 0) +
  (if 11 ≤ m then 31 else 0) +
  (if 12 ≤ m then 30 else 0)

/-- Linear day number of a date (proleptic Gregorian). -/
def toDayNumber (d : JSDate) : Int :=
  let yb := d.year - 1
  365 * yb + yb / 4 - yb / 100 + yb / 400 + daysBeforeMonth d.year d.month + d.day

/-- date-fns `differenceInDays a b` = full days of `a - b`; exact at day
granularity. -/
def differenceInDays (a b : JSDate) : Int := toDayNumber a - toDayNumber b

/-- JS `Math.round`: round half toward positive infinity. -/
def jsRound (q : ℚ) : Int := ⌊q + 1/2⌋

/-- An invoice line item (`{ product_name, amount, commission }`). -/
structure LineItem where
  product_name : String
  amount : ℚ
  commission : ℚ
deriving DecidableEq, Repr

/-- An invoice record as consumed by the engine. -/
structure Invoice where
  id : String
  client_id : String
  invoice_date : JSDate
  total_amount : ℚ
  total_commission : ℚ
  rest_amount : ℚ
  rest_commission : ℚ
  products : List LineItem
deriving DecidableEq, Repr

/-- The period tokens of `ClientDetailView` (`'1m' | '3m' | '6m' | '1y' | 'all'`). -/
inductive PeriodFilter where
  | m1 | m3 | m6 | y1 | all
deriving DecidableEq, Repr

/-- The `startDate` computed by the `switch` in `filteredInvoices`
(`subMonths now 1` / `subQuarters now 1` / `subMonths now 6` / `subYears now 1`). -/
def startDateFor (p : PeriodFilter) (now : JSDate) : JSDate :=
  match p with
  | .m1 => subMonths now 1
  | .m3 => subMonths now 3
  | .m6 => subMonths now 6
  | .y1 => subMonths now 12
  | .all => subMonths now 6

/-- `filteredInvoices`: the client's invoices, restricted (unless `all`) to
those dated on or after the period's start date. -/
def filteredInvoices (invoices : List Invoice) (clientId : String)
    (p : PeriodFilter) (now : JSDate) : List Invoice :=
  let clientInvoices := invoices.filter (fun inv => inv.client_id == clientId)
  match p with
  | .all => clientInvoices
  | _ => clientInvoices.filter (fun inv => dateLe (startDateFor p now) inv.invoice_date)

/-- `reduce((sum, inv) => sum + f inv, 0)`. -/
def sumBy (l : List Invoice) (f : Invoice → ℚ) : ℚ :=
  l.foldl (fun s i => s + f i) 0

/-- Output of `getGrowthForPeriod`. -/
structure GrowthInfo where
  currentSales : ℚ
  previousSales : ℚ
  currentCommission : ℚ
  prevCommission : ℚ
  salesGrowth : ℚ
  commissionGrowth : ℚ
  invoiceCount : Nat
  prevInvoiceCount : Nat
deriving DecidableEq, Repr

/-- `getGrowthForPeriod`: totals over the invoices inside the current and the
previous interval, with growth `(cur − prev)/prev × 100` when `prev > 0`, else
`100` when `cur > 0`, else `0`. -/
def getGrowthForPeriod (invs : List Invoice) (cs ce ps pe : JSDate) : GrowthInfo :=
  let currentInvoices := invs.filter (fun i => isWithinInterval i.invoice_date cs ce)
  let prevInvoices := invs.filter (fun i => isWithinInterval i.invoice_date ps pe)
  let currentTotal := sumBy currentInvoices (fun i => i.total_amount)
  let prevTotal := sumBy prevInvoices (fun i => i.total_amount)
  let currentCommission := sumBy currentInvoices (fun i => i.total_commission)
  let prevCommission := sumBy prevInvoices (fun i => i.total_commission)
  { currentSales := currentTotal
    previousSales := prevTotal
    currentCommission := currentCommission
    prevCommission := prevCommission
    salesGrowth :=
      if 0 < prevTotal then ((currentTotal - prevTotal) / prevTotal) * 100
      else if 0 < currentTotal then 100 else 0
    commissionGrowth :=
      if 0 < prevCommission then ((currentCommission - prevCommission) / prevCommission) * 100
      else if 0 < currentCommission then 100 else 0
    invoiceCount := currentInvoices.length
    prevInvoiceCount := prevInvoices.length }

/-- The accumulated per-product figures held in `productMap` (the mutable
`ProductAnalysis` objects of the source before the final `map` pass; the
derived fields `avgPerInvoice`, `growth`, `percentOfTotal`, the trend flags
and the recommendation stay at their zero/placeholder values until that pass,
so they are omitted from the accumulator). -/
structure ProdAcc where
  name : String
  totalSales : ℚ
  totalCommission : ℚ
  totalQuantity : Nat
  invoiceCount : Nat
  lastMonthSales : ℚ
  prevMonthSales : ℚ
  lastPurchaseDate : Option JSDate
deriving DecidableEq, Repr

/-- The fresh accumulator created when a product key is first seen. -/
def emptyAcc (nm : String) : ProdAcc :=
  { name := nm, totalSales := 0, totalCommission := 0, totalQuantity := 0,
    invoiceCount := 0, lastMonthSales := 0, prevMonthSales := 0,
    lastPurchaseDate := none }

/-- `if (!existing.lastPurchaseDate || invDate > parseISO(existing.lastPurchaseDate))
existing.lastPurchaseDate = inv.invoice_date`. -/
def newerDate (cur : Option JSDate) (d : JSDate) : Option JSDate :=
  match cur with
  | none => some d
  | some c => if dateLt c d then some d else some c

/-- One line-item (or rest-amount) update of an accumulator: add the amount
and commission, count one purchase occurrence, add the amount to the current
and/or previous calendar-month sum, and keep the most recent purchase date. -/
def lineUpd (isCur isPrev : Bool) (invDate : JSDate) (amount commission : ℚ)
    (a : ProdAcc) : ProdAcc :=
  { a with
    totalSales := a.totalSales + amount
    totalCommission := a.totalCommission + commission
    totalQuantity := a.totalQuantity + 1
    invoiceCount := a.invoiceCount + 1
    lastMonthSales := a.lastMonthSales + (if isCur then amount else 0)
    prevMonthSales := a.prevMonthSales + (if isPrev then amount else 0)
    lastPurchaseDate := newerDate a.lastPurchaseDate invDate }

/-- Insertion-ordered association list standing for the JS `Map`: updating an
existing key keeps its position, a new key is appended at the end (exactly the
iteration-order semantics of `Map.set`/`Map.values`). -/
def updateAssoc (m : List (String × ProdAcc)) (key : String) (f : ProdAcc → ProdAcc)
    (init : ProdAcc) : List (String × ProdAcc) :=
  match m with
  | [] => [(key, f init)]
  | (k, v) :: rest =>
    if k = key then (k, f v) :: rest else (k, v) :: updateAssoc rest key f init

/-- `Map.get`. -/
def assocFind (m : List (String × ProdAcc)) (key : String) : Option ProdAcc :=
  match m with
  | [] => none
  | (k, v) :: rest => if k = key then some v else assocFind rest key

/-- Processing of one line item inside `filteredInvoices.forEach`: only lines
with `p.amount > 0` touch the map. -/
def procLine (isCur isPrev : Bool) (invDate : JSDate)
    (m : List (String × ProdAcc)) (p : LineItem) : List (String × ProdAcc) :=
  if 0 < p.amount then
    updateAssoc m p.product_name
      (lineUpd isCur isPrev invDate p.amount p.commission)
      (emptyAcc p.product_name)
  else m

/-- Processing of one invoice: every line item in order, then the rest amount
under the pseudo-product key `Resto General` when `rest_amount > 0`. -/
def procInvoice (now : JSDate) (m : List (String × ProdAcc)) (inv : Invoice) :
    List (String × ProdAcc) :=
  let isCur := isWithinInterval inv.invoice_date (startOfMonth now) (endOfMonth now)
  let isPrev := isWithinInterval inv.invoice_date
    (startOfMonth (subMonths now 1)) (endOfMonth (subMonths now 1))
  let m1 := inv.products.foldl (procLine isCur isPrev inv.invoice_date) m
  if 0 < inv.rest_amount then
    updateAssoc m1 "Resto General"
      (lineUpd isCur isPrev inv.invoice_date inv.rest_amount inv.rest_commission)
      (emptyAcc "Resto General")
  else m1

/-- The per-product accumulation over the filtered invoice list (`productMap`). -/
def buildProductMap (now : JSDate) (invs : List Invoice) : List (String × ProdAcc) :=
  invs.foldl (procInvoice now) []

/-- The per-product month-over-month growth rule of the final `map` pass:
`prev > 0 ? (cur − prev)/prev × 100 : (cur > 0 ? 100 : -100)`. -/
def growthRule (cur prev : ℚ) : ℚ :=
  if 0 < prev then ((cur - prev) / prev) * 100
  else if 0 < cur then 100 else -100

/-- The published per-product record. -/
structure ProductAnalysis where
  name : String
  totalSales : ℚ
  totalCommission : ℚ
  totalQuantity : Nat
  invoiceCount : Nat
  avgPerInvoice : ℚ
  lastMonthSales : ℚ
  prevMonthSales : ℚ
  growth : ℚ
  percentOfTotal : ℚ
  lastPurchaseDate : Option JSDate
  isGrowing : Bool
  isDeclining : Bool
  isStopped : Bool
  recommendation : String
deriving DecidableEq, Repr

/-- The final `map` pass of `productAnalysis`: derive growth, the three trend
flags, the recommendation text, the per-occurrence average and the share of
the client total. -/
def finalize (clientTotalSales : ℚ) (p : ProdAcc) : ProductAnalysis :=
  let growth := growthRule p.lastMonthSales p.prevMonthSales
  let isGrowing := decide (15 < growth)
  let isDeclining := decide (growth < -15)
  let isStopped := decide (p.lastMonthSales = 0) && decide (0 < p.prevMonthSales)
  { name := p.name
    totalSales := p.totalSales
    totalCommission := p.totalCommission
    totalQuantity := p.totalQuantity
    invoiceCount := p.invoiceCount
    avgPerInvoice := if 0 < p.invoiceCount then p.totalSales / p.invoiceCount else 0
    lastMonthSales := p.lastMonthSales
    prevMonthSales := p.prevMonthSales
    growth := growth
    percentOfTotal := if 0 < clientTotalSales then (p.totalSales / clientTotalSales) * 100 else 0
    lastPurchaseDate := p.lastPurchaseDate
    isGrowing := isGrowing
    isDeclining := isDeclining
    isStopped := isStopped
    recommendation :=
      if isStopped then "⚠️ Dejó de comprar este producto. Verificar disponibilidad o competencia."
      else if isDeclining then "📉 Ventas en declive. Considerar promoción o revisar precio."
      else if isGrowing then "📈 Excelente crecimiento. Mantener stock y considerar upselling."
      else if 0 < p.lastMonthSales then "✅ Ventas estables. Mantener seguimiento regular."
      else "💡 Sin actividad reciente. Recordar producto al cliente." }

/-- Stable insertion: place `x` before the first element `y` with `le x y`.
Together with the fold below this is extensionally the ECMAScript stable
`Array.prototype.sort` for a consistent comparator. -/
def stableInsert (le : α → α → Bool) (x : α) : List α → List α
  | [] => [x]
  | y :: ys => if le x y then x :: y :: ys else y :: stableInsert le x ys

/-- Stable sort with respect to `le` (insertion sort, stable: elements that
compare equal keep their input order, as ECMAScript guarantees). -/
def stableSort (le : α → α → Bool) (l : List α) : List α :=
  l.foldr (stableInsert le) []

/-- The comparator `(a, b) => b.totalSales - a.totalSales`: `a` may precede
`b` exactly when `b.totalSales ≤ a.totalSales`. -/
def salesLe (a b : ProductAnalysis) : Bool := decide (b.totalSales ≤ a.totalSales)

/-- The comparator sorting invoices by ascending date. -/
def invoiceDateLe (a b : Invoice) : Bool := dateLe a.invoice_date b.invoice_date

/-- The five client-level states. -/
inductive ClientStatus where
  | growing | stable | declining | inactive | at_risk
deriving DecidableEq, Repr

/-- The truthiness gate `daysSinceLastPurchase && daysSinceLastPurchase > 60`
(JS: `null` and `0` are falsy). -/
def inactiveGate (ds : Option Int) : Bool :=
  match ds with
  | none => false
  | some d => decide (d ≠ 0) && decide (60 < d)

/-- The status if-chain of the source (priority order: inactive, at_risk,
declining, growing, stable). -/
def clientStatus (ds : Option Int) (monthlySalesGrowth : ℚ) (stoppedCount : Nat) :
    ClientStatus :=
  if inactiveGate ds then .inactive
  else if monthlySalesGrowth < -20 ∨ 2 ≤ stoppedCount then .at_risk
  else if monthlySalesGrowth < -5 then .declining
  else if 15 < monthlySalesGrowth then .growing
  else .stable

/-- Critical alerts, with the free-text Spanish messages abstracted to their
payloads: the overdue alert carries the two day figures it interpolates, the
stopped alert carries the count and the names it lists, the drop alert
carries the growth figure whose absolute value it formats. -/
inductive Alert where
  | overdue (daysSince : Int) (avgDays : Int)
  | stoppedAlert (count : Nat) (names : List String)
  | drop (salesGrowth : ℚ)
deriving DecidableEq, Repr

/-- The three alert pushes, in source order.  The first condition is the JS
`daysSinceLastPurchase && daysSinceLastPurchase > avgDaysBetweenPurchases * 1.5
&& avgDaysBetweenPurchases > 0` (truthiness: `null`/`0` short-circuit). -/
def criticalAlertsOf (ds : Option Int) (avgDays : Int)
    (stopped : List ProductAnalysis) (monthlySalesGrowth : ℚ) : List Alert :=
  (match ds with
   | none => []
   | some d =>
     if decide (d ≠ 0) && (decide ((avgDays : ℚ) * (3/2) < (d : ℚ)) && decide (0 < avgDays))
     then [Alert.overdue d avgDays] else [])
  ++ (if 0 < stopped.length
      then [Alert.stoppedAlert stopped.length (stopped.map (fun p => p.name))] else [])
  ++ (if monthlySalesGrowth < -20 then [Alert.drop monthlySalesGrowth] else [])

/-- `avgDaysBetweenPurchases`: mean gap in days between consecutive invoices
of the date-sorted list, `Math.round`ed; `0` with fewer than two invoices. -/
def avgDaysBetween (sorted : List Invoice) : Int :=
  if 2 ≤ sorted.length then
    let totalDays := (sorted.zip sorted.tail).foldl
      (fun s ab => s + differenceInDays ab.2.invoice_date ab.1.invoice_date) 0
    jsRound ((totalDays : ℚ) / ((sorted.length : ℚ) - 1))
  else 0

/-- The part of the `analytics` result record the claims are about (the
monthly trend series, the recent-invoice list, the why-growing/why-declining
texts and the status copy are view concerns not referenced by any claim). -/
structure AnalyticsResult where
  totalSales : ℚ
  totalCommission : ℚ
  invoiceCount : Nat
  avgTicket : ℚ
  avgDaysBetweenPurchases : Int
  daysSinceLastPurchase : Option Int
  monthlyGrowth : GrowthInfo
  productAnalysis : List ProductAnalysis
  topProducts : List ProductAnalysis
  growingProducts : List ProductAnalysis
  decliningProducts : List ProductAnalysis
  stoppedProducts : List ProductAnalysis
  criticalAlerts : List Alert
  status : ClientStatus
deriving DecidableEq, Repr

/-- The `analytics` computation of `ClientDetailView` over one client's
invoices, a period token and a reference `now`. -/
def clientAnalytics (invoices : List Invoice) (clientId : String)
    (p : PeriodFilter) (now : JSDate) : AnalyticsResult :=
  let filtered := filteredInvoices invoices clientId p now
  let totalSales := sumBy filtered (fun i => i.total_amount)
  let totalCommission := sumBy filtered (fun i => i.total_commission)
  let invoiceCount := filtered.length
  let avgTicket := if 0 < invoiceCount then totalSales / (invoiceCount : ℚ) else 0
  let sortedInvoices := stableSort invoiceDateLe filtered
  let avgDays := avgDaysBetween sortedInvoices
  let daysSince := sortedInvoices.getLast?.map
    (fun i => differenceInDays now i.invoice_date)
  let monthlyGrowth := getGrowthForPeriod filtered
    (startOfMonth now) (endOfMonth now)
    (startOfMonth (subMonths now 1)) (endOfMonth (subMonths now 1))
  let productAnalysis := stableSort salesLe
    ((buildProductMap now filtered).map (fun kv => finalize totalSales kv.2))
  let stoppedProducts := productAnalysis.filter (fun p => p.isStopped)
  { totalSales := totalSales
    totalCommission := totalCommission
    invoiceCount := invoiceCount
    avgTicket := avgTicket
    avgDaysBetweenPurchases := avgDays
    daysSinceLastPurchase := daysSince
    monthlyGrowth := monthlyGrowth
    productAnalysis := productAnalysis
    topProducts := productAnalysis.take 5
    growingProducts := productAnalysis.filter (fun p => p.isGrowing)
    decliningProducts := productAnalysis.filter (fun p => p.isDeclining)
    stoppedProducts := stoppedProducts
    criticalAlerts := criticalAlertsOf daysSince avgDays stoppedProducts
      monthlyGrowth.salesGrowth
    status := clientStatus daysSince monthlyGrowth.salesGrowth stoppedProducts.length }

/-- The period tokens of `VisitPrepDashboard` (no `all`). -/
inductive VPPeriod where
  | m1 | m3 | m6 | y1
deriving DecidableEq, Repr

/-- `monthsBack` of `periodDates`. -/
def vpMonthsBack : VPPeriod → Int
  | .m1 => 1
  | .m3 => 3
  | .m6 => 6
  | .y1 => 12

/-- The window record of `periodDates` (`stop` models the source field `end`,
a reserved word here). -/
structure PeriodDates where
  start : JSDate
  stop : JSDate
  previousStart : JSDate
  previousEnd : JSDate
deriving DecidableEq, Repr

/-- `periodDates` of `VisitPrepDashboard`. -/
def periodDates (now : JSDate) (p : VPPeriod) : PeriodDates :=
  let monthsBack := vpMonthsBack p
  { start := startOfMonth (subMonths now monthsBack)
    stop := endOfMonth now
    previousStart := startOfMonth (subMonths now (monthsBack * 2))
    previousEnd := endOfMonth (subMonths now (monthsBack + 1)) }

/-- The additive content of a product accumulator (everything except the
name and the max-tracked last purchase date). -/
structure Contrib where
  sales : ℚ
  comm : ℚ
  qty : Nat
  cnt : Nat
  curMonth : ℚ
  prevMonth : ℚ
deriving DecidableEq, Repr

/-- Zero contribution. -/
def Contrib.zero : Contrib := ⟨0, 0, 0, 0, 0, 0⟩

/-- Componentwise addition of contributions. -/
def Contrib.add (a b : Contrib) : Contrib :=
  ⟨a.sales + b.sales, a.comm + b.comm, a.qty + b.qty, a.cnt + b.cnt,
    a.curMonth + b.curMonth, a.prevMonth + b.prevMonth⟩

/-- Sum of a list of contributions. -/
def Contrib.sum : List Contrib → Contrib
  | [] => Contrib.zero
  | c :: l => c.add (Contrib.sum l)

/-- The additive content of an accumulator. -/
def contribOfAcc (a : ProdAcc) : Contrib :=
  ⟨a.totalSales, a.totalCommission, a.totalQuantity, a.invoiceCount,
    a.lastMonthSales, a.prevMonthSales⟩

/-- The additive figures the map holds for a key (zero when absent). -/
def mapContrib (m : List (String × ProdAcc)) (name : String) : Contrib :=
  match assocFind m name with
  | some a => contribOfAcc a
  | none => Contrib.zero

/-- Modelled from the spec: the contribution of one counted entry — exactly
one purchase occurrence, its amount into the sales sum (and into the current
and/or previous calendar-month sum), its commission into the commission sum. -/
def lineContrib (isCur isPrev : Bool) (amount commission : ℚ) : Contrib :=
  ⟨amount, commission, 1, 1, if isCur then amount else 0, if isPrev then amount else 0⟩

/-- Modelled from the spec (amended): the total contribution of an invoice's
line items to the product key `name` — one `lineContrib` per line item whose
product name is `name` and whose amount is strictly positive; other lines
contribute nothing. -/
def linesContrib (isCur isPrev : Bool) (name : String) : List LineItem → Contrib
  | [] => Contrib.zero
  | p :: ps =>
    (if p.product_name = name ∧ 0 < p.amount
     then lineContrib isCur isPrev p.amount p.commission else Contrib.zero).add
      (linesContrib isCur isPrev name ps)

/-- Modelled from the spec (amended): the total contribution of one invoice to
the product key `name`: its qualifying line items, plus — only under the key
`Resto General` and only when `rest_amount > 0` — one occurrence carrying
`rest_amount` and `rest_commission`. -/
def invContrib (now : JSDate) (inv : Invoice) (name : String) : Contrib :=
  let isCur := isWithinInterval inv.invoice_date (startOfMonth now) (endOfMonth now)
  let isPrev := isWithinInterval inv.invoice_date
    (startOfMonth (subMonths now 1)) (endOfMonth (subMonths now 1))
  (linesContrib isCur isPrev name inv.products).add
    (if name = "Resto General" ∧ 0 < inv.rest_amount
     then lineContrib isCur isPrev inv.rest_amount inv.rest_commission
     else Contrib.zero)

/-- The per-product (current calendar month, previous calendar month) sales
pair the engine tracks for a product key, for a given period token. -/
def productMonthSums (invoices : List Invoice) (clientId : String)
    (p : PeriodFilter) (now : JSDate) (name : String) : ℚ × ℚ :=
  let c := mapContrib (buildProductMap now (filteredInvoices invoices clientId p now)) name
  (c.curMonth, c.prevMonth)

/-- Sum of a list of rationals. -/
def qsum (l : List ℚ) : ℚ := l.foldr (· + ·) 0

/-- A calendar-valid month field. -/
def validMonth (d : JSDate) : Prop := 1 ≤ d.month ∧ d.month ≤ 12

/-! Concrete test inputs used by the witnesses and counterexamples. -/

/-- Reference date 2024-03-15. -/
def c1now : JSDate := ⟨2024, 3, 15⟩

/-- A single invoice dated 2024-01-14, i.e. 61 days before `c1now`. -/
def c1inv : Invoice := ⟨"i1", "c", ⟨2024, 1, 14⟩, 100, 10, 0, 0, [⟨"A", 100, 10⟩]⟩

/-- Reference date 2024-06-15. -/
def c2now : JSDate := ⟨2024, 6, 15⟩

/-- An invoice dated 2024-03-10 — inside the six-month window but in neither
the current (June) nor the previous (May) calendar month. -/
def c2inv : Invoice := ⟨"i1", "c", ⟨2024, 3, 10⟩, 100, 10, 0, 0, [⟨"A", 100, 10⟩]⟩

/-- The accumulator the engine builds for product `A` of `c2inv`. -/
def c2acc : ProdAcc := ⟨"A", 100, 10, 1, 1, 0, 0, some ⟨2024, 3, 10⟩⟩

/-- An invoice of 80 in May 2024 (previous month of `c2now`). -/
def c2wA : Invoice := ⟨"a", "c", ⟨2024, 5, 10⟩, 80, 8, 0, 0, []⟩

/-- An invoice of 150 in June 2024 (current month of `c2now`). -/
def c2wB : Invoice := ⟨"b", "c", ⟨2024, 6, 10⟩, 150, 15, 0, 0, []⟩

/-- Reference date 2024-06-15. -/
def c3now : JSDate := ⟨2024, 6, 15⟩

/-- An invoice with product `P` of 500 in May 2024: previous-month sales 500,
current-month sales 0. -/
def c3inv : Invoice := ⟨"i1", "c", ⟨2024, 5, 10⟩, 500, 50, 0, 0, [⟨"P", 500, 50⟩]⟩

/-- The accumulator the engine builds for product `P` of `c3inv`. -/
def c3acc : ProdAcc := ⟨"P", 500, 50, 1, 1, 0, 500, some ⟨2024, 5, 10⟩⟩

/-- Reference date 2024-03-15. -/
def c4now : JSDate := ⟨2024, 3, 15⟩

/-- An invoice of 2024-02-05: inside the previous calendar month of `c4now`
but before `subMonths c4now 1 = 2024-02-15`, the `1m` window start. -/
def c4inv : Invoice := ⟨"i1", "c", ⟨2024, 2, 5⟩, 100, 10, 0, 0, [⟨"A", 100, 10⟩]⟩

/-- Reference date 2024-06-15. -/
def c5now : JSDate := ⟨2024, 6, 15⟩

/-- An invoice with two distinct products of equal amount, line order `B`
then `A`. -/
def c5inv : Invoice := ⟨"i1", "c", ⟨2024, 6, 10⟩, 200, 0, 0, 0, [⟨"B", 100, 0⟩, ⟨"A", 100, 0⟩]⟩

/-- Reference date 2024-06-15. -/
def c8now : JSDate := ⟨2024, 6, 15⟩

/-- Reference date 2024-06-15. -/
def c9now : JSDate := ⟨2024, 6, 15⟩

/-- An invoice with two line items for product `A`, one of amount 5 and one
of amount 0. -/
def c9inv : Invoice := ⟨"i1", "c", ⟨2024, 6, 10⟩, 5, 3, 0, 0, [⟨"A", 5, 1⟩, ⟨"A", 0, 2⟩]⟩

/-- Reference date 2024-06-15. -/
def c10now : JSDate := ⟨2024, 6, 15⟩

/-- A single one-line invoice in the current month of `c10now`. -/
def c10inv : Invoice := ⟨"i1", "c", ⟨2024, 6, 10⟩, 100, 10, 0, 0, [⟨"A", 100, 10⟩]⟩

/-- The accumulator the engine builds for product `A` of `c10inv`. -/
def c10acc : ProdAcc := ⟨"A", 100, 10, 1, 1, 100, 0, some ⟨2024, 6, 10⟩⟩

/-! Helper lemmas. -/

theorem analytics_status_def (invs : List Invoice) (c : String) (p : PeriodFilter)
    (now : JSDate) :
    (clientAnalytics invs c p now).status =
      clientStatus (clientAnalytics invs c p now).daysSinceLastPurchase
        (clientAnalytics invs c p now).monthlyGrowth.salesGrowth
        (clientAnalytics invs c p now).stoppedProducts.length := rfl

theorem inactiveGate_some (d : Int) : inactiveGate (some d) = decide (60 < d) := by
  by_cases h : 60 < d
  · have hd : d ≠ 0 := by omega
    simp [inactiveGate, h, hd]
  · simp [inactiveGate, h]

theorem clientStatus_some_eq (d : Int) (g : ℚ) (n : Nat) :
    clientStatus (some d) g n =
      if 60 < d then .inactive
      else if g < -20 ∨ 2 ≤ n then .at_risk
      else if g < -5 then .declining
      else if 15 < g then .growing
      else .stable := by
  simp [clientStatus, inactiveGate_some]

theorem clientStatus_some_spec (d : Int) (g : ℚ) (n : Nat) :
    (clientStatus (some d) g n = .inactive ↔ 60 < d)
    ∧ (¬ 60 < d → (clientStatus (some d) g n = .at_risk ↔ (g < -20 ∨ 2 ≤ n)))
    ∧ (¬ 60 < d → ¬(g < -20 ∨ 2 ≤ n) →
        (clientStatus (some d) g n = .declining ↔ g < -5))
    ∧ (¬ 60 < d → ¬(g < -20 ∨ 2 ≤ n) → ¬ g < -5 →
        (clientStatus (some d) g n = .growing ↔ 15 < g))
    ∧ (¬ 60 < d → ¬(g < -20 ∨ 2 ≤ n) → ¬ g < -5 → ¬ 15 < g →
        clientStatus (some d) g n = .stable)
    ∧ (d = 61 → clientStatus (some d) g n = .inactive) := by
  rw [clientStatus_some_eq]
  split_ifs with h60 hr hd hg
  all_goals simp_all
  all_goals omega

/-! Claim theorems. -/

/-- C1: for a client whose analytics carry a last-purchase distance `d`, the
client-level status is chosen in strict priority order — `inactive` iff
`d > 60`; otherwise `at_risk` iff monthly sales growth < −20 or at least two
stopped products; otherwise `declining` iff growth < −5; otherwise `growing`
iff growth > 15; otherwise `stable`.  In particular `d = 61` forces
`inactive` regardless of the growth figures and stopped counts. -/
theorem C1_status_priority (invs : List Invoice) (c : String) (p : PeriodFilter)
    (now : JSDate) (d : Int)
    (h : (clientAnalytics invs c p now).daysSinceLastPurchase = some d) :
    ((clientAnalytics invs c p now).status = .inactive ↔ 60 < d)
    ∧ (¬ 60 < d →
        ((clientAnalytics invs c p now).status = .at_risk ↔
          ((clientAnalytics invs c p now).monthlyGrowth.salesGrowth < -20
            ∨ 2 ≤ (clientAnalytics invs c p now).stoppedProducts.length)))
    ∧ (¬ 60 < d →
        ¬((clientAnalytics invs c p now).monthlyGrowth.salesGrowth < -20
            ∨ 2 ≤ (clientAnalytics invs c p now).stoppedProducts.length) →
        ((clientAnalytics invs c p now).status = .declining ↔
          (clientAnalytics invs c p now).monthlyGrowth.salesGrowth < -5))
    ∧ (¬ 60 < d →
        ¬((clientAnalytics invs c p now).monthlyGrowth.salesGrowth < -20
            ∨ 2 ≤ (clientAnalytics invs c p now).stoppedProducts.length) →
        ¬ (clientAnalytics invs c p now).monthlyGrowth.salesGrowth < -5 →
        ((clientAnalytics invs c p now).status = .growing ↔
          15 < (clientAnalytics invs c p now).monthlyGrowth.salesGrowth))
    ∧ (¬ 60 < d →
        ¬((clientAnalytics invs c p now).monthlyGrowth.salesGrowth < -20
            ∨ 2 ≤ (clientAnalytics invs c p now).stoppedProducts.length) →
        ¬ (clientAnalytics invs c p now).monthlyGrowth.salesGrowth < -5 →
        ¬ 15 < (clientAnalytics invs c p now).monthlyGrowth.salesGrowth →
        (clientAnalytics invs c p now).status = .stable)
    ∧ (d = 61 → (clientAnalytics invs c p now).status = .inactive) := by
  have hs := analytics_status_def invs c p now
  rw [h] at hs
  rw [hs]
  exact clientStatus_some_spec d _ _

/-- C1 witness: a client whose single invoice is 61 days old is `inactive`. -/
theorem C1_status_priority_witness :
    (clientAnalytics [c1inv] "c" .m6 c1now).daysSinceLastPurchase = some 61
    ∧ (clientAnalytics [c1inv] "c" .m6 c1now).status = .inactive := by
  refine ⟨by decide, ?_⟩
  exact (C1_status_priority [c1inv] "c" .m6 c1now 61 (by decide)).2.2.2.2.2 rfl

theorem filteredInvoices_of_no_client (invs : List Invoice) (c : String)
    (p : PeriodFilter) (now : JSDate) (h : ∀ i ∈ invs, i.client_id ≠ c) :
    filteredInvoices invs c p now = [] := by
  have hcl : invs.filter (fun inv => inv.client_id == c) = [] := by
    rw [List.filter_eq_nil_iff]
    intro a ha
    simpa using h a ha
  unfold filteredInvoices
  cases p <;> simp [hcl]

theorem clientAnalytics_of_no_invoices (invs : List Invoice) (c : String)
    (p : PeriodFilter) (now : JSDate) (h : ∀ i ∈ invs, i.client_id ≠ c) :
    clientAnalytics invs c p now =
      { totalSales := 0, totalCommission := 0, invoiceCount := 0, avgTicket := 0,
        avgDaysBetweenPurchases := 0, daysSinceLastPurchase := none,
        monthlyGrowth := ⟨0, 0, 0, 0, 0, 0, 0, 0⟩,
        productAnalysis := [], topProducts := [], growingProducts := [],
        decliningProducts := [], stoppedProducts := [], criticalAlerts := [],
        status := .stable } := by
  unfold clientAnalytics
  rw [filteredInvoices_of_no_client invs c p now h]
  rfl

/-- C6: for a client with no invoices the engine reports no last-purchase
date, monthly sales growth 0, no critical alerts, empty product lists, and
resolves the status through the final otherwise branch to `stable` — in
particular the `inactive` branch is not taken. -/
theorem C6_zero_history (invs : List Invoice) (c : String) (p : PeriodFilter)
    (now : JSDate) (h : ∀ i ∈ invs, i.client_id ≠ c) :
    (clientAnalytics invs c p now).daysSinceLastPurchase = none
    ∧ (clientAnalytics invs c p now).monthlyGrowth.salesGrowth = 0
    ∧ (clientAnalytics invs c p now).criticalAlerts = []
    ∧ (clientAnalytics invs c p now).productAnalysis = []
    ∧ (clientAnalytics invs c p now).topProducts = []
    ∧ (clientAnalytics invs c p now).growingProducts = []
    ∧ (clientAnalytics invs c p now).decliningProducts = []
    ∧ (clientAnalytics invs c p now).stoppedProducts = []
    ∧ (clientAnalytics invs c p now).status = .stable
    ∧ (clientAnalytics invs c p now).status ≠ .inactive := by
  rw [clientAnalytics_of_no_invoices invs c p now h]
  refine ⟨rfl, rfl, rfl, rfl, rfl, rfl, rfl, rfl, rfl, by decide⟩

/-- C6 witness: the empty invoice list. -/
theorem C6_zero_history_witness :
    (clientAnalytics [] "c" .m6 c1now).daysSinceLastPurchase = none
    ∧ (clientAnalytics [] "c" .m6 c1now).status = .stable := by
  have h := C6_zero_history [] "c" .m6 c1now (by simp)
  exact ⟨h.1, h.2.2.2.2.2.2.2.2.1⟩

theorem analytics_alerts_def (invs : List Invoice) (c : String) (p : PeriodFilter)
    (now : JSDate) :
    (clientAnalytics invs c p now).criticalAlerts =
      criticalAlertsOf (clientAnalytics invs c p now).daysSinceLastPurchase
        (clientAnalytics invs c p now).avgDaysBetweenPurchases
        (clientAnalytics invs c p now).stoppedProducts
        (clientAnalytics invs c p now).monthlyGrowth.salesGrowth := rfl

theorem criticalAlertsOf_spec (ds : Option Int) (avgDays : Int)
    (stopped : List ProductAnalysis) (g : ℚ) :
    criticalAlertsOf ds avgDays stopped g =
      (match ds with
       | none => []
       | some d =>
         if 0 < avgDays ∧ (avgDays : ℚ) * (3/2) < (d : ℚ)
         then [Alert.overdue d avgDays] else [])
      ++ (if stopped ≠ []
          then [Alert.stoppedAlert stopped.length (stopped.map (fun p => p.name))]
          else [])
      ++ (if g < -20 then [Alert.drop g] else []) := by
  have h1 : (match ds with
       | none => ([] : List Alert)
       | some d =>
         if decide (d ≠ 0) && (decide ((avgDays : ℚ) * (3/2) < (d : ℚ)) && decide (0 < avgDays))
         then [Alert.overdue d avgDays] else []) =
      (match ds with
       | none => []
       | some d =>
         if 0 < avgDays ∧ (avgDays : ℚ) * (3/2) < (d : ℚ)
         then [Alert.overdue d avgDays] else []) := by
    cases ds with
    | none => rfl
    | some d =>
      dsimp only
      by_cases hc : 0 < avgDays ∧ (avgDays : ℚ) * (3/2) < (d : ℚ)
      · have hd : d ≠ 0 := by
          rcases hc with ⟨ha, hlt⟩
          have hq : (1 : ℚ) ≤ (avgDays : ℚ) := by exact_mod_cast ha
          have hdq : (0 : ℚ) < (d : ℚ) := by linarith
          have : (0 : Int) < d := by exact_mod_cast hdq
          omega
        simp [hc, hc.1, hc.2, hd]
      · rw [if_neg hc]
        rcases Decidable.em ((avgDays : ℚ) * (3/2) < (d : ℚ)) with hlt | hlt
        · have hav : ¬ 0 < avgDays := fun ha => hc ⟨ha, hlt⟩
          simp [hlt, hav]
        · simp [hlt]
  have h2 : (if 0 < stopped.length
      then [Alert.stoppedAlert stopped.length (stopped.map (fun p => p.name))]
      else ([] : List Alert)) =
      (if stopped ≠ []
       then [Alert.stoppedAlert stopped.length (stopped.map (fun p => p.name))]
       else []) := by
    rcases Decidable.em (stopped = []) with hs | hs
    · simp [hs]
    · have hlen : 0 < stopped.length := List.length_pos.mpr hs
      simp [hs, hlen]
  unfold criticalAlertsOf
  rw [h1, h2]

/-- C7: the critical-alert list is exactly the concatenation, in fixed order,
of a purchase-overdue alert (present iff the average purchase gap is positive
and the last purchase is more than 1.5 times that gap away), a stopped-products
alert carrying the count and names of all stopped products (present iff some
product is stopped), and a significant-drop alert (present iff monthly sales
growth < −20); when no condition holds the list is empty. -/
theorem C7_alerts_characterization (invs : List Invoice) (c : String)
    (p : PeriodFilter) (now : JSDate) :
    (clientAnalytics invs c p now).criticalAlerts =
      (match (clientAnalytics invs c p now).daysSinceLastPurchase with
       | none => []
       | some d =>
         if 0 < (clientAnalytics invs c p now).avgDaysBetweenPurchases
            ∧ ((clientAnalytics invs c p now).avgDaysBetweenPurchases : ℚ) * (3/2) < (d : ℚ)
         then [Alert.overdue d (clientAnalytics invs c p now).avgDaysBetweenPurchases]
         else [])
      ++ (if (clientAnalytics invs c p now).stoppedProducts ≠ []
          then [Alert.stoppedAlert (clientAnalytics invs c p now).stoppedProducts.length
                ((clientAnalytics invs c p now).stoppedProducts.map (fun x => x.name))]
          else [])
      ++ (if (clientAnalytics invs c p now).monthlyGrowth.salesGrowth < -20
          then [Alert.drop (clientAnalytics invs c p now).monthlyGrowth.salesGrowth]
          else []) := by
  rw [analytics_alerts_def, criticalAlertsOf_spec]

theorem mem_stableInsert (le : α → α → Bool) (x y : α) (l : List α) :
    y ∈ stableInsert le x l ↔ y = x ∨ y ∈ l := by
  induction l with
  | nil => simp [stableInsert]
  | cons z zs ih =>
    by_cases h : le x z
    · simp [stableInsert, h]
    · simp [stableInsert, h, ih]
      tauto

theorem mem_stableSort (le : α → α → Bool) (y : α) (l : List α) :
    y ∈ stableSort le l ↔ y ∈ l := by
  induction l with
  | nil => simp [stableSort]
  | cons x xs ih =>
    show y ∈ stableInsert le x (stableSort le xs) ↔ _
    rw [mem_stableInsert]
    simp [ih]

theorem analytics_productAnalysis_def (invs : List Invoice) (c : String)
    (p : PeriodFilter) (now : JSDate) :
    (clientAnalytics invs c p now).productAnalysis =
      stableSort salesLe
        ((buildProductMap now (filteredInvoices invs c p now)).map
          (fun kv => finalize
            (sumBy (filteredInvoices invs c p now) (fun i => i.total_amount)) kv.2)) := rfl

theorem mem_productAnalysis_exists (invs : List Invoice) (c : String)
    (p : PeriodFilter) (now : JSDate) (x : ProductAnalysis)
    (hx : x ∈ (clientAnalytics invs c p now).productAnalysis) :
    ∃ a : ProdAcc,
      (∃ k : String, (k, a) ∈ buildProductMap now (filteredInvoices invs c p now))
      ∧ x = finalize (sumBy (filteredInvoices invs c p now) (fun i => i.total_amount)) a := by
  rw [analytics_productAnalysis_def, mem_stableSort] at hx
  rcases List.mem_map.mp hx with ⟨kv, hkvm, hkv⟩
  exact ⟨kv.2, ⟨kv.1, hkvm⟩, hkv.symm⟩

theorem mem_productAnalysis_growth (invs : List Invoice) (c : String)
    (p : PeriodFilter) (now : JSDate) (x : ProductAnalysis)
    (hx : x ∈ (clientAnalytics invs c p now).productAnalysis) :
    x.growth = growthRule x.lastMonthSales x.prevMonthSales := by
  rcases mem_productAnalysis_exists invs c p now x hx with ⟨a, -, rfl⟩
  rfl

theorem mem_productAnalysis_flags (invs : List Invoice) (c : String)
    (p : PeriodFilter) (now : JSDate) (x : ProductAnalysis)
    (hx : x ∈ (clientAnalytics invs c p now).productAnalysis) :
    x.isGrowing = decide (15 < x.growth)
    ∧ x.isDeclining = decide (x.growth < -15)
    ∧ x.isStopped = (decide (x.lastMonthSales = 0) && decide (0 < x.prevMonthSales)) := by
  rcases mem_productAnalysis_exists invs c p now x hx with ⟨a, -, rfl⟩
  exact ⟨rfl, rfl, rfl⟩

theorem growthRule_of_prev_pos (cur prev : ℚ) (h : 0 < prev) :
    growthRule cur prev = ((cur - prev) / prev) * 100 := by
  simp [growthRule, h]

theorem growthRule_of_prev_zero_cur_pos (cur prev : ℚ) (h : prev = 0) (h2 : 0 < cur) :
    growthRule cur prev = 100 := by
  simp [growthRule, h, h2]

theorem growthRule_of_both_zero (cur prev : ℚ) (h : prev = 0) (h2 : cur = 0) :
    growthRule cur prev = -100 := by
  simp [growthRule, h, h2]

theorem growthRule_of_prev_pos_cur_zero (cur prev : ℚ) (h : 0 < prev) (h2 : cur = 0) :
    growthRule cur prev = -100 := by
  have hne : prev ≠ 0 := ne_of_gt h
  rw [growthRule_of_prev_pos cur prev h, h2, zero_sub, neg_div, div_self hne]
  norm_num

theorem getGrowthForPeriod_salesGrowth (invs : List Invoice) (cs ce ps pe : JSDate) :
    (getGrowthForPeriod invs cs ce ps pe).salesGrowth =
      if 0 < (getGrowthForPeriod invs cs ce ps pe).previousSales then
        (((getGrowthForPeriod invs cs ce ps pe).currentSales -
          (getGrowthForPeriod invs cs ce ps pe).previousSales) /
          (getGrowthForPeriod invs cs ce ps pe).previousSales) * 100
      else if 0 < (getGrowthForPeriod invs cs ce ps pe).currentSales then 100
      else 0 := rfl

/-- C2 counterexample: product `A` of `c2inv` has zero sales in both the
current and the previous calendar month, yet its growth is −100, not the 0
the claim's zero-handling rule demands. -/
theorem C2_zero_rule_counterexample :
    ((clientAnalytics [c2inv] "c" .m6 c2now).productAnalysis.map
      (fun x => (x.prevMonthSales, x.lastMonthSales, x.growth))) = [(0, 0, -100)]
    ∧ ((-100 : ℚ) = 0 → False) := by
  refine ⟨?_, by norm_num⟩
  norm_num [clientAnalytics, filteredInvoices, startDateFor, subMonths, monthIndex,
      startOfMonth, endOfMonth, daysInMonth, isLeapYear, dateLe, dateLt, isWithinInterval,
      sumBy, getGrowthForPeriod, buildProductMap, procInvoice, procLine, updateAssoc,
      emptyAcc, lineUpd, newerDate, stableSort, stableInsert, salesLe, invoiceDateLe,
      finalize, growthRule, avgDaysBetween, jsRound, differenceInDays, toDayNumber,
      daysBeforeMonth, c2inv, c2now]

/-- C2 (amended): the client-level period growth follows the rule
`prev > 0 → (cur − prev)/prev × 100` (hence `−100` at `cur = 0`),
`prev = 0 ∧ cur > 0 → 100`, `prev = 0 ∧ cur = 0 → 0`; the per-product
month-over-month growth follows the same rule except that with
`prev = 0 ∧ cur = 0` it is `−100`, not `0`. -/
theorem C2_growth_rule_amended :
    (∀ (invs : List Invoice) (cs ce ps pe : JSDate),
      (0 < (getGrowthForPeriod invs cs ce ps pe).previousSales →
        (getGrowthForPeriod invs cs ce ps pe).salesGrowth =
          (((getGrowthForPeriod invs cs ce ps pe).currentSales -
            (getGrowthForPeriod invs cs ce ps pe).previousSales) /
            (getGrowthForPeriod invs cs ce ps pe).previousSales) * 100)
      ∧ ((getGrowthForPeriod invs cs ce ps pe).previousSales = 0 →
          0 < (getGrowthForPeriod invs cs ce ps pe).currentSales →
          (getGrowthForPeriod invs cs ce ps pe).salesGrowth = 100)
      ∧ ((getGrowthForPeriod invs cs ce ps pe).previousSales = 0 →
          (getGrowthForPeriod invs cs ce ps pe).currentSales = 0 →
          (getGrowthForPeriod invs cs ce ps pe).salesGrowth = 0)
      ∧ (0 < (getGrowthForPeriod invs cs ce ps pe).previousSales →
          (getGrowthForPeriod invs cs ce ps pe).currentSales = 0 →
          (getGrowthForPeriod invs cs ce ps pe).salesGrowth = -100))
    ∧ (∀ (invs : List Invoice) (c : String) (p : PeriodFilter) (now : JSDate)
        (x : ProductAnalysis), x ∈ (clientAnalytics invs c p now).productAnalysis →
        (0 < x.prevMonthSales →
          x.growth = ((x.lastMonthSales - x.prevMonthSales) / x.prevMonthSales) * 100)
        ∧ (x.prevMonthSales = 0 → 0 < x.lastMonthSales → x.growth = 100)
        ∧ (x.prevMonthSales = 0 → x.lastMonthSales = 0 → x.growth = -100)
        ∧ (0 < x.prevMonthSales → x.lastMonthSales = 0 → x.growth = -100)) := by
  constructor
  · intro invs cs ce ps pe
    refine ⟨fun h => ?_, fun h h2 => ?_, fun h h2 => ?_, fun h h2 => ?_⟩
    · rw [getGrowthForPeriod_salesGrowth, if_pos h]
    · rw [getGrowthForPeriod_salesGrowth, if_neg (by rw [h]; exact lt_irrefl 0), if_pos h2]
    · rw [getGrowthForPeriod_salesGrowth, if_neg (by rw [h]; exact lt_irrefl 0),
        if_neg (by rw [h2]; exact lt_irrefl 0)]
    · rw [getGrowthForPeriod_salesGrowth, if_pos h, h2, zero_sub, neg_div,
        div_self (ne_of_gt h)]
      norm_num
  · intro invs c p now x hx
    have hg := mem_productAnalysis_growth invs c p now x hx
    exact ⟨fun h => by rw [hg, growthRule_of_prev_pos _ _ h],
      fun h h2 => by rw [hg, growthRule_of_prev_zero_cur_pos _ _ h h2],
      fun h h2 => by rw [hg, growthRule_of_both_zero _ _ h h2],
      fun h h2 => by rw [hg, growthRule_of_prev_pos_cur_zero _ _ h h2]⟩

/-- C2 witness: a concrete 80-then-150 month pair yields the exact formula
value, and the concrete entry of `c2inv` (both month sums zero) has growth
−100. -/
theorem C2_growth_rule_amended_witness :
    (getGrowthForPeriod [c2wA, c2wB] ⟨2024, 6, 1⟩ ⟨2024, 6, 30⟩ ⟨2024, 5, 1⟩
      ⟨2024, 5, 31⟩).salesGrowth = (((150 : ℚ) - 80) / 80) * 100
    ∧ (finalize 100 c2acc).growth = -100 := by
  constructor
  · have h := (C2_growth_rule_amended.1 [c2wA, c2wB] ⟨2024, 6, 1⟩ ⟨2024, 6, 30⟩
      ⟨2024, 5, 1⟩ ⟨2024, 5, 31⟩).1
      (by norm_num [getGrowthForPeriod, sumBy, isWithinInterval, dateLe, c2wA, c2wB])
    rw [h]
    norm_num [getGrowthForPeriod, sumBy, isWithinInterval, dateLe, c2wA, c2wB]
  · refine ((C2_growth_rule_amended.2 [c2inv] "c" .m6 c2now (finalize 100 c2acc)
      ?_).2.2.1 rfl rfl)
    norm_num [clientAnalytics, filteredInvoices, startDateFor, subMonths, monthIndex,
      startOfMonth, endOfMonth, daysInMonth, isLeapYear, dateLe, dateLt, isWithinInterval,
      sumBy, getGrowthForPeriod, buildProductMap, procInvoice, procLine, updateAssoc,
      emptyAcc, lineUpd, newerDate, stableSort, stableInsert, salesLe, invoiceDateLe,
      finalize, growthRule, avgDaysBetween, jsRound, differenceInDays, toDayNumber,
      daysBeforeMonth, c2inv, c2now, c2acc]


theorem analytics_stoppedProducts_def (invs : List Invoice) (c : String)
    (p : PeriodFilter) (now : JSDate) :
    (clientAnalytics invs c p now).stoppedProducts =
      (clientAnalytics invs c p now).productAnalysis.filter (fun x => x.isStopped) := rfl

theorem analytics_decliningProducts_def (invs : List Invoice) (c : String)
    (p : PeriodFilter) (now : JSDate) :
    (clientAnalytics invs c p now).decliningProducts =
      (clientAnalytics invs c p now).productAnalysis.filter (fun x => x.isDeclining) := rfl

theorem analytics_growingProducts_def (invs : List Invoice) (c : String)
    (p : PeriodFilter) (now : JSDate) :
    (clientAnalytics invs c p now).growingProducts =
      (clientAnalytics invs c p now).productAnalysis.filter (fun x => x.isGrowing) := rfl

/-- C3 counterexample: the product `P` of `c3inv` (May sales 500, June sales
0) appears in `stoppedProducts` and also in `decliningProducts`, contradicting
the claim that a stopped product appears in neither declining nor growing
lists. -/
theorem C3_stopped_counterexample :
    ((clientAnalytics [c3inv] "c" .m6 c3now).stoppedProducts.map (fun x => x.name) = ["P"])
    ∧ ((clientAnalytics [c3inv] "c" .m6 c3now).decliningProducts.map (fun x => x.name) = ["P"]) := by
  constructor <;>
    norm_num [clientAnalytics, filteredInvoices, startDateFor, subMonths, monthIndex,
    startOfMonth, endOfMonth, daysInMonth, isLeapYear, dateLe, dateLt, isWithinInterval,
    sumBy, getGrowthForPeriod, buildProductMap, procInvoice, procLine, updateAssoc,
    emptyAcc, lineUpd, newerDate, stableSort, stableInsert, salesLe, invoiceDateLe,
    finalize, growthRule, avgDaysBetween, jsRound, differenceInDays, toDayNumber,
    daysBeforeMonth, c3inv, c3now]

/-- C3 (amended): every product with positive previous-month sales and zero
current-month sales appears in `stoppedProducts`, appears in
`decliningProducts` as well (its growth is −100 < −15), and never appears in
`growingProducts`. -/
theorem C3_stopped_amended (invs : List Invoice) (c : String) (p : PeriodFilter)
    (now : JSDate) (x : ProductAnalysis)
    (hx : x ∈ (clientAnalytics invs c p now).productAnalysis)
    (h1 : 0 < x.prevMonthSales) (h2 : x.lastMonthSales = 0) :
    x ∈ (clientAnalytics invs c p now).stoppedProducts
    ∧ x ∈ (clientAnalytics invs c p now).decliningProducts
    ∧ x ∉ (clientAnalytics invs c p now).growingProducts := by
  have hg : x.growth = -100 := by
    rw [mem_productAnalysis_growth invs c p now x hx]
    exact growthRule_of_prev_pos_cur_zero _ _ h1 h2
  obtain ⟨hgrow, hdecl, hstop⟩ := mem_productAnalysis_flags invs c p now x hx
  have hstopT : x.isStopped = true := by
    rw [hstop, h2]
    simp [h1]
  have hdeclT : x.isDeclining = true := by
    rw [hdecl, hg]
    norm_num
  have hgrowF : x.isGrowing = false := by
    rw [hgrow, hg]
    norm_num
  refine ⟨?_, ?_, ?_⟩
  · rw [analytics_stoppedProducts_def]
    exact List.mem_filter.mpr ⟨hx, hstopT⟩
  · rw [analytics_decliningProducts_def]
    exact List.mem_filter.mpr ⟨hx, hdeclT⟩
  · rw [analytics_growingProducts_def]
    intro hmem
    have := (List.mem_filter.mp hmem).2
    rw [hgrowF] at this
    exact Bool.false_ne_true this

/-- C3 witness: the concrete stopped product of `c3inv`. -/
theorem C3_stopped_amended_witness :
    finalize 500 c3acc ∈ (clientAnalytics [c3inv] "c" .m6 c3now).stoppedProducts
    ∧ finalize 500 c3acc ∈ (clientAnalytics [c3inv] "c" .m6 c3now).decliningProducts
    ∧ finalize 500 c3acc ∉ (clientAnalytics [c3inv] "c" .m6 c3now).growingProducts := by
  refine C3_stopped_amended [c3inv] "c" .m6 c3now (finalize 500 c3acc) ?_ ?_ rfl
  · norm_num [clientAnalytics, filteredInvoices, startDateFor, subMonths, monthIndex,
    startOfMonth, endOfMonth, daysInMonth, isLeapYear, dateLe, dateLt, isWithinInterval,
    sumBy, getGrowthForPeriod, buildProductMap, procInvoice, procLine, updateAssoc,
    emptyAcc, lineUpd, newerDate, stableSort, stableInsert, salesLe, invoiceDateLe,
    finalize, growthRule, avgDaysBetween, jsRound, differenceInDays, toDayNumber,
    daysBeforeMonth, c3inv, c3now, c3acc]
  · norm_num [finalize, c3acc]

theorem forall_updateAssoc (P : ProdAcc → Prop) (m : List (String × ProdAcc))
    (key : String) (f : ProdAcc → ProdAcc) (init : ProdAcc)
    (hm : ∀ kv ∈ m, P kv.2) (hf : ∀ v, P v → P (f v)) (hinit : P (f init)) :
    ∀ kv ∈ updateAssoc m key f init, P kv.2 := by
  induction m with
  | nil =>
    intro kv hkv
    simp only [updateAssoc, List.mem_singleton] at hkv
    rw [hkv]
    exact hinit
  | cons hd tl ih =>
    obtain ⟨k, v⟩ := hd
    intro kv hkv
    by_cases h : k = key
    · simp only [updateAssoc, h, if_pos rfl] at hkv
      rcases List.mem_cons.mp hkv with h1 | h1
      · rw [h1]
        exact hf v (hm (k, v) (List.mem_cons_self _ _))
      · exact hm kv (List.mem_cons_of_mem _ h1)
    · simp only [updateAssoc, if_neg h] at hkv
      rcases List.mem_cons.mp hkv with h1 | h1
      · rw [h1]
        exact hm (k, v) (List.mem_cons_self _ _)
      · exact ih (fun y hy => hm y (List.mem_cons_of_mem _ hy)) kv h1

/-- The invariant of C10 on accumulators. -/
theorem accPos_lineUpd (isCur isPrev : Bool) (d : JSDate) (amt com : ℚ)
    (hamt : 0 < amt) (a : ProdAcc)
    (ha : 0 < a.totalSales ∧ 1 ≤ a.invoiceCount ∧ 1 ≤ a.totalQuantity) :
    0 < (lineUpd isCur isPrev d amt com a).totalSales
    ∧ 1 ≤ (lineUpd isCur isPrev d amt com a).invoiceCount
    ∧ 1 ≤ (lineUpd isCur isPrev d amt com a).totalQuantity := by
  refine ⟨?_, ?_, ?_⟩
  · have : (0 : ℚ) < a.totalSales + amt := by linarith [ha.1]
    simpa [lineUpd] using this
  · simp [lineUpd]
  · simp [lineUpd]

theorem accPos_lineUpd_empty (isCur isPrev : Bool) (d : JSDate) (amt com : ℚ)
    (hamt : 0 < amt) (nm : String) :
    0 < (lineUpd isCur isPrev d amt com (emptyAcc nm)).totalSales
    ∧ 1 ≤ (lineUpd isCur isPrev d amt com (emptyAcc nm)).invoiceCount
    ∧ 1 ≤ (lineUpd isCur isPrev d amt com (emptyAcc nm)).totalQuantity := by
  refine ⟨?_, by simp [lineUpd, emptyAcc], by simp [lineUpd, emptyAcc]⟩
  simpa [lineUpd, emptyAcc] using hamt

theorem accPos_procLine (isCur isPrev : Bool) (d : JSDate)
    (m : List (String × ProdAcc)) (li : LineItem)
    (hm : ∀ kv ∈ m, 0 < kv.2.totalSales ∧ 1 ≤ kv.2.invoiceCount ∧ 1 ≤ kv.2.totalQuantity) :
    ∀ kv ∈ procLine isCur isPrev d m li,
      0 < kv.2.totalSales ∧ 1 ≤ kv.2.invoiceCount ∧ 1 ≤ kv.2.totalQuantity := by
  unfold procLine
  by_cases h : 0 < li.amount
  · rw [if_pos h]
    exact forall_updateAssoc _ m _ _ _ hm
      (fun v hv => accPos_lineUpd _ _ _ _ _ h v hv)
      (accPos_lineUpd_empty _ _ _ _ _ h _)
  · rw [if_neg h]
    exact hm

theorem accPos_lines (isCur isPrev : Bool) (d : JSDate) (ps : List LineItem) :
    ∀ m : List (String × ProdAcc),
      (∀ kv ∈ m, 0 < kv.2.totalSales ∧ 1 ≤ kv.2.invoiceCount ∧ 1 ≤ kv.2.totalQuantity) →
      ∀ kv ∈ ps.foldl (procLine isCur isPrev d) m,
        0 < kv.2.totalSales ∧ 1 ≤ kv.2.invoiceCount ∧ 1 ≤ kv.2.totalQuantity := by
  induction ps with
  | nil => intro m hm; exact hm
  | cons q qs ih =>
    intro m hm
    exact ih (procLine isCur isPrev d m q) (accPos_procLine isCur isPrev d m q hm)

theorem accPos_procInvoice (now : JSDate) (m : List (String × ProdAcc)) (inv : Invoice)
    (hm : ∀ kv ∈ m, 0 < kv.2.totalSales ∧ 1 ≤ kv.2.invoiceCount ∧ 1 ≤ kv.2.totalQuantity) :
    ∀ kv ∈ procInvoice now m inv,
      0 < kv.2.totalSales ∧ 1 ≤ kv.2.invoiceCount ∧ 1 ≤ kv.2.totalQuantity := by
  unfold procInvoice
  have hlines := accPos_lines
    (isWithinInterval inv.invoice_date (startOfMonth now) (endOfMonth now))
    (isWithinInterval inv.invoice_date (startOfMonth (subMonths now 1))
      (endOfMonth (subMonths now 1)))
    inv.invoice_date inv.products m hm
  by_cases h : 0 < inv.rest_amount
  · rw [if_pos h]
    exact forall_updateAssoc _ _ _ _ _ hlines
      (fun v hv => accPos_lineUpd _ _ _ _ _ h v hv)
      (accPos_lineUpd_empty _ _ _ _ _ h _)
  · rw [if_neg h]
    exact hlines

theorem accPos_buildProductMap (now : JSDate) (invs : List Invoice) :
    ∀ kv ∈ buildProductMap now invs,
      0 < kv.2.totalSales ∧ 1 ≤ kv.2.invoiceCount ∧ 1 ≤ kv.2.totalQuantity := by
  unfold buildProductMap
  generalize hm : ([] : List (String × ProdAcc)) = m
  have hbase : ∀ kv ∈ m, 0 < kv.2.totalSales ∧ 1 ≤ kv.2.invoiceCount ∧ 1 ≤ kv.2.totalQuantity := by
    rw [← hm]
    intro kv hkv
    exact absurd hkv (List.not_mem_nil kv)
  clear hm
  induction invs generalizing m with
  | nil => exact hbase
  | cons i is ih =>
    exact ih (procInvoice now m i) (accPos_procInvoice now m i hbase)

/-- C10: every published product entry has strictly positive cumulative
sales and at least one counted occurrence, and its per-occurrence average is
the real quotient `totalSales / invoiceCount`. -/
theorem C10_positive_entries (invs : List Invoice) (c : String) (p : PeriodFilter)
    (now : JSDate) (x : ProductAnalysis)
    (hx : x ∈ (clientAnalytics invs c p now).productAnalysis) :
    0 < x.totalSales ∧ 1 ≤ x.invoiceCount ∧ 1 ≤ x.totalQuantity
    ∧ x.avgPerInvoice = x.totalSales / (x.invoiceCount : ℚ) := by
  rcases mem_productAnalysis_exists invs c p now x hx with ⟨a, ⟨k, hk⟩, rfl⟩
  have ha := accPos_buildProductMap now (filteredInvoices invs c p now) (k, a) hk
  refine ⟨ha.1, ha.2.1, ha.2.2, ?_⟩
  show (if 0 < a.invoiceCount then a.totalSales / (a.invoiceCount : ℚ) else 0) = _
  rw [if_pos (Nat.lt_of_lt_of_le Nat.zero_lt_one ha.2.1)]
  rfl

/-- C10 witness: the concrete entry of `c10inv`. -/
theorem C10_positive_entries_witness :
    0 < (finalize 100 c10acc).totalSales ∧ 1 ≤ (finalize 100 c10acc).invoiceCount
    ∧ 1 ≤ (finalize 100 c10acc).totalQuantity
    ∧ (finalize 100 c10acc).avgPerInvoice =
        (finalize 100 c10acc).totalSales / ((finalize 100 c10acc).invoiceCount : ℚ) := by
  refine C10_positive_entries [c10inv] "c" .m6 c10now (finalize 100 c10acc) ?_
  norm_num [clientAnalytics, filteredInvoices, startDateFor, subMonths, monthIndex,
    startOfMonth, endOfMonth, daysInMonth, isLeapYear, dateLe, dateLt, isWithinInterval,
    sumBy, getGrowthForPeriod, buildProductMap, procInvoice, procLine, updateAssoc,
    emptyAcc, lineUpd, newerDate, stableSort, stableInsert, salesLe, invoiceDateLe,
    finalize, growthRule, avgDaysBetween, jsRound, differenceInDays, toDayNumber,
    daysBeforeMonth, c10inv, c10now, c10acc]


theorem salesLe_total (a b : ProductAnalysis) : salesLe a b = true ∨ salesLe b a = true := by
  simp only [salesLe, decide_eq_true_eq]
  exact le_total _ _

theorem salesLe_trans (a b c : ProductAnalysis) (h1 : salesLe a b = true)
    (h2 : salesLe b c = true) : salesLe a c = true := by
  simp only [salesLe, decide_eq_true_eq] at h1 h2 ⊢
  exact le_trans h2 h1

theorem pairwise_stableInsert_salesLe (x : ProductAnalysis) (l : List ProductAnalysis)
    (h : l.Pairwise (fun a b => salesLe a b = true)) :
    (stableInsert salesLe x l).Pairwise (fun a b => salesLe a b = true) := by
  induction l with
  | nil => simp [stableInsert]
  | cons y ys ih =>
    rcases List.pairwise_cons.mp h with ⟨hy, hys⟩
    simp only [stableInsert]
    by_cases hle : salesLe x y
    · rw [if_pos hle]
      refine List.pairwise_cons.mpr ⟨?_, h⟩
      intro z hz
      rcases List.mem_cons.mp hz with h1 | h1
      · rw [h1]; exact hle
      · exact salesLe_trans x y z hle (hy z h1)
    · rw [if_neg hle]
      refine List.pairwise_cons.mpr ⟨?_, ih hys⟩
      intro z hz
      rcases (mem_stableInsert salesLe x z ys).mp hz with h1 | h1
      · rw [h1]
        rcases salesLe_total x y with h2 | h2
        · exact absurd h2 hle
        · exact h2
      · exact hy z h1

theorem pairwise_stableSort_salesLe (l : List ProductAnalysis) :
    (stableSort salesLe l).Pairwise (fun a b => salesLe a b = true) := by
  induction l with
  | nil => simp [stableSort]
  | cons x xs ih => exact pairwise_stableInsert_salesLe x (stableSort salesLe xs) ih

theorem filter_stableInsert_of_ne (x : ProductAnalysis) (l : List ProductAnalysis)
    (q : ℚ) (hx : x.totalSales ≠ q) :
    (stableInsert salesLe x l).filter (fun y => decide (y.totalSales = q)) =
      l.filter (fun y => decide (y.totalSales = q)) := by
  induction l with
  | nil => simp [stableInsert, hx]
  | cons y ys ih =>
    simp only [stableInsert]
    by_cases hle : salesLe x y
    · rw [if_pos hle]
      simp [List.filter_cons, hx]
    · rw [if_neg hle]
      simp only [List.filter_cons, ih]

theorem filter_stableInsert_of_eq (x : ProductAnalysis) (l : List ProductAnalysis)
    (q : ℚ) (hx : x.totalSales = q)
    (hl : l.Pairwise (fun a b => salesLe a b = true)) :
    (stableInsert salesLe x l).filter (fun y => decide (y.totalSales = q)) =
      x :: l.filter (fun y => decide (y.totalSales = q)) := by
  induction l with
  | nil => simp [stableInsert, hx]
  | cons y ys ih =>
    rcases List.pairwise_cons.mp hl with ⟨hy, hys⟩
    simp only [stableInsert]
    by_cases hle : salesLe x y
    · rw [if_pos hle]
      simp [List.filter_cons, hx]
    · rw [if_neg hle]
      have hxy : x.totalSales < y.totalSales := by
        simp only [salesLe, decide_eq_true_eq] at hle
        exact lt_of_not_le hle
      have hyq : y.totalSales ≠ q := by
        intro hq
        rw [hx, hq] at hxy
        exact lt_irrefl q hxy
      have hpy : (decide (y.totalSales = q)) = false := decide_eq_false_iff_not.mpr hyq
      simp [List.filter_cons, hpy, ih hys]

theorem filter_stableSort_salesLe (l : List ProductAnalysis) (q : ℚ) :
    (stableSort salesLe l).filter (fun y => decide (y.totalSales = q)) =
      l.filter (fun y => decide (y.totalSales = q)) := by
  induction l with
  | nil => rfl
  | cons x xs ih =>
    show (stableInsert salesLe x (stableSort salesLe xs)).filter _ = _
    by_cases hx : x.totalSales = q
    · rw [filter_stableInsert_of_eq x _ q hx (pairwise_stableSort_salesLe xs), ih]
      simp [List.filter_cons, hx]
    · rw [filter_stableInsert_of_ne x _ q hx, ih]
      simp [List.filter_cons, hx]

/-- C5 counterexample: two products with equal cumulative sales (`B` entered
first) are published in insertion order `B`, `A` — not in the claimed
ascending-name order `A`, `B`. -/
theorem C5_sort_counterexample :
    ((clientAnalytics [c5inv] "c" .m6 c5now).productAnalysis.map
      (fun x => (x.name, x.totalSales)) = [("B", (100 : ℚ)), ("A", 100)])
    ∧ ((clientAnalytics [c5inv] "c" .m6 c5now).productAnalysis.map (fun x => x.name)
        ≠ ["A", "B"]) := by
  have hBA : ("B" : String) ≠ "A" := by decide
  have hAB : ("A" : String) ≠ "B" := by decide
  refine ⟨?_, ?_⟩ <;>
    norm_num [clientAnalytics, filteredInvoices, startDateFor, subMonths, monthIndex,
    startOfMonth, endOfMonth, daysInMonth, isLeapYear, dateLe, dateLt, isWithinInterval,
    sumBy, getGrowthForPeriod, buildProductMap, procInvoice, procLine, updateAssoc,
    emptyAcc, lineUpd, newerDate, stableSort, stableInsert, salesLe, invoiceDateLe,
    finalize, growthRule, avgDaysBetween, jsRound, differenceInDays, toDayNumber,
    daysBeforeMonth, c5inv, c5now, hBA, hAB]

/-- C5 (amended): `productAnalysis` is ordered descending by cumulative
sales, and within any group of equal cumulative sales the entries keep their
first-encountered (map-insertion) order — the published order of each
equal-sales group equals its order in the unsorted finalized map — rather
than ascending product name; the ordering is a pure function of the input,
hence identical across repeated calls. -/
theorem C5_sort_amended (invs : List Invoice) (c : String) (p : PeriodFilter)
    (now : JSDate) :
    List.Pairwise (fun a b => b.totalSales ≤ a.totalSales)
      (clientAnalytics invs c p now).productAnalysis
    ∧ ∀ q : ℚ,
      (clientAnalytics invs c p now).productAnalysis.filter
        (fun x => decide (x.totalSales = q)) =
      ((buildProductMap now (filteredInvoices invs c p now)).map
        (fun kv => finalize (sumBy (filteredInvoices invs c p now)
          (fun i => i.total_amount)) kv.2)).filter
        (fun x => decide (x.totalSales = q)) := by
  constructor
  · rw [analytics_productAnalysis_def]
    exact (pairwise_stableSort_salesLe _).imp
      (fun hab => by simpa [salesLe, decide_eq_true_eq] using hab)
  · intro q
    rw [analytics_productAnalysis_def]
    exact filter_stableSort_salesLe _ q


theorem monthIndex_subMonths (d : JSDate) (n : Int) :
    monthIndex (subMonths d n) = monthIndex d - n := by
  simp only [subMonths, monthIndex]
  omega

theorem subMonths_month_range (d : JSDate) (n : Int) :
    1 ≤ (subMonths d n).month ∧ (subMonths d n).month ≤ 12 := by
  simp only [subMonths]
  omega

theorem monthIndex_startOfMonth (d : JSDate) : monthIndex (startOfMonth d) = monthIndex d := rfl

theorem monthIndex_endOfMonth (d : JSDate) : monthIndex (endOfMonth d) = monthIndex d := rfl

theorem dateLt_of_monthIndex_lt (a b : JSDate) (ha1 : 1 ≤ a.month) (ha2 : a.month ≤ 12)
    (hb1 : 1 ≤ b.month) (hb2 : b.month ≤ 12) (h : monthIndex a < monthIndex b) :
    dateLt a b = true := by
  simp only [monthIndex] at h
  simp only [dateLt, Bool.or_eq_true, Bool.and_eq_true, decide_eq_true_eq]
  omega

/-- C8 counterexample: for `now = 2024-06-15` and the `3 months` token the
current window (2024-03-01 .. 2024-06-30) is 122 days long while the paired
previous window (2023-12-01 .. 2024-02-29) is 91 days long — the two windows
do not have equal length. -/
theorem C8_window_length_counterexample :
    toDayNumber (periodDates c8now .m3).stop - toDayNumber (periodDates c8now .m3).start + 1 = 122
    ∧ toDayNumber (periodDates c8now .m3).previousEnd -
        toDayNumber (periodDates c8now .m3).previousStart + 1 = 91
    ∧ (122 : Int) ≠ 91 := by
  refine ⟨by decide, by decide, by norm_num⟩

/-- C8 (amended): for every bounded token with `N = monthsBack` and every
reference `now`, the current window runs from the first day of the month `N`
months back through the last day of the current month (hence spans `N + 1`
calendar months), while the previous window runs from the first day of the
month `2N` months back through the last day of the month `N + 1` months back
(hence spans `N` calendar months); the previous window ends in the month
immediately preceding the current window's first month and lies strictly
before it — the windows are adjacent and never overlap, but they do not have
equal length. -/
theorem C8_window_amended (now : JSDate) (p : VPPeriod) :
    (periodDates now p).start.day = 1
    ∧ monthIndex (periodDates now p).start = monthIndex now - vpMonthsBack p
    ∧ monthIndex (periodDates now p).stop = monthIndex now
    ∧ (periodDates now p).stop.day =
        daysInMonth (periodDates now p).stop.year (periodDates now p).stop.month
    ∧ (periodDates now p).previousStart.day = 1
    ∧ monthIndex (periodDates now p).previousStart = monthIndex now - vpMonthsBack p * 2
    ∧ monthIndex (periodDates now p).previousEnd = monthIndex now - (vpMonthsBack p + 1)
    ∧ (periodDates now p).previousEnd.day =
        daysInMonth (periodDates now p).previousEnd.year (periodDates now p).previousEnd.month
    ∧ monthIndex (periodDates now p).start - monthIndex (periodDates now p).previousEnd = 1
    ∧ dateLt (periodDates now p).previousEnd (periodDates now p).start = true := by
  have e1 : (periodDates now p).start = startOfMonth (subMonths now (vpMonthsBack p)) := rfl
  have e2 : (periodDates now p).stop = endOfMonth now := rfl
  have e3 : (periodDates now p).previousStart =
      startOfMonth (subMonths now (vpMonthsBack p * 2)) := rfl
  have e4 : (periodDates now p).previousEnd =
      endOfMonth (subMonths now (vpMonthsBack p + 1)) := rfl
  rw [e1, e2, e3, e4]
  refine ⟨rfl, ?_, rfl, rfl, rfl, ?_, ?_, rfl, ?_, ?_⟩
  · rw [monthIndex_startOfMonth, monthIndex_subMonths]
  · rw [monthIndex_startOfMonth, monthIndex_subMonths]
  · rw [monthIndex_endOfMonth, monthIndex_subMonths]
  · rw [monthIndex_startOfMonth, monthIndex_subMonths,
      monthIndex_endOfMonth, monthIndex_subMonths]
    ring
  · have hrange := subMonths_month_range now (vpMonthsBack p + 1)
    have hrange2 := subMonths_month_range now (vpMonthsBack p)
    refine dateLt_of_monthIndex_lt _ _ hrange.1 hrange.2 hrange2.1 hrange2.2 ?_
    rw [monthIndex_endOfMonth, monthIndex_subMonths,
      monthIndex_startOfMonth, monthIndex_subMonths]
    omega


theorem Contrib.add_zero (a : Contrib) : a.add Contrib.zero = a := by
  cases a
  simp [Contrib.add, Contrib.zero]

theorem Contrib.zero_add (a : Contrib) : Contrib.zero.add a = a := by
  cases a
  simp [Contrib.add, Contrib.zero]

theorem Contrib.add_assoc (a b c : Contrib) : (a.add b).add c = a.add (b.add c) := by
  cases a
  cases b
  cases c
  simp only [Contrib.add, Contrib.mk.injEq]
  refine ⟨by ring, by ring, by omega, by omega, by ring, by ring⟩

theorem assocFind_updateAssoc (m : List (String × ProdAcc)) (key : String)
    (f : ProdAcc → ProdAcc) (init : ProdAcc) (k2 : String) :
    assocFind (updateAssoc m key f init) k2 =
      if k2 = key then some (f ((assocFind m key).getD init)) else assocFind m k2 := by
  induction m with
  | nil =>
    by_cases h : k2 = key
    · subst h
      simp [updateAssoc, assocFind]
    · have h' : ¬ key = k2 := fun hh => h hh.symm
      simp [updateAssoc, assocFind, h, h']
  | cons hd tl ih =>
    obtain ⟨k, v⟩ := hd
    by_cases hk : k = key
    · subst hk
      by_cases h2 : k2 = k
      · subst h2
        simp [updateAssoc, assocFind]
      · have h2' : ¬ k = k2 := fun hh => h2 hh.symm
        simp [updateAssoc, assocFind, h2, h2']
    · by_cases h2 : k2 = k
      · subst h2
        have hk2 : ¬ k2 = key := fun hh => hk hh
        simp [updateAssoc, assocFind, hk, hk2]
      · have h2' : ¬ k = k2 := fun hh => h2 hh.symm
        simp [updateAssoc, assocFind, hk, h2, h2', ih]

theorem contribOfAcc_lineUpd (isCur isPrev : Bool) (d : JSDate) (amt com : ℚ)
    (a : ProdAcc) :
    contribOfAcc (lineUpd isCur isPrev d amt com a) =
      (contribOfAcc a).add (lineContrib isCur isPrev amt com) := rfl

theorem mapContrib_updateAssoc_lineUpd (m : List (String × ProdAcc)) (key : String)
    (isCur isPrev : Bool) (d : JSDate) (amt com : ℚ) (name : String) :
    mapContrib (updateAssoc m key (lineUpd isCur isPrev d amt com) (emptyAcc key)) name =
      if name = key then (mapContrib m name).add (lineContrib isCur isPrev amt com)
      else mapContrib m name := by
  by_cases h : name = key
  · subst h
    cases hfind : assocFind m name with
    | none =>
      simp only [mapContrib, assocFind_updateAssoc, if_pos rfl, hfind, Option.getD]
      rfl
    | some a =>
      simp only [mapContrib, assocFind_updateAssoc, if_pos rfl, hfind, Option.getD]
      rfl
  · simp only [mapContrib, assocFind_updateAssoc, if_neg h]

theorem mapContrib_foldl_procLine (isCur isPrev : Bool) (d : JSDate)
    (ps : List LineItem) (name : String) :
    ∀ m, mapContrib (ps.foldl (procLine isCur isPrev d) m) name =
      (mapContrib m name).add (linesContrib isCur isPrev name ps) := by
  induction ps with
  | nil =>
    intro m
    show mapContrib m name = (mapContrib m name).add Contrib.zero
    rw [Contrib.add_zero]
  | cons q qs ih =>
    intro m
    show mapContrib (qs.foldl _ (procLine isCur isPrev d m q)) name = _
    rw [ih]
    have hq : mapContrib (procLine isCur isPrev d m q) name =
        (mapContrib m name).add
          (if q.product_name = name ∧ 0 < q.amount
           then lineContrib isCur isPrev q.amount q.commission else Contrib.zero) := by
      unfold procLine
      by_cases ha : 0 < q.amount
      · rw [if_pos ha, mapContrib_updateAssoc_lineUpd]
        by_cases hn : name = q.product_name
        · rw [if_pos hn, if_pos ⟨hn.symm, ha⟩]
        · rw [if_neg hn, if_neg (fun hc => hn hc.1.symm), Contrib.add_zero]
      · rw [if_neg ha, if_neg (fun hc => ha hc.2), Contrib.add_zero]
    rw [hq, Contrib.add_assoc]
    rfl

theorem mapContrib_procInvoice (now : JSDate) (m : List (String × ProdAcc))
    (inv : Invoice) (name : String) :
    mapContrib (procInvoice now m inv) name =
      (mapContrib m name).add (invContrib now inv name) := by
  simp only [procInvoice, invContrib]
  by_cases hr : 0 < inv.rest_amount
  · rw [if_pos hr, mapContrib_updateAssoc_lineUpd]
    by_cases hn : name = "Resto General"
    · rw [if_pos hn, mapContrib_foldl_procLine, if_pos ⟨hn, hr⟩, Contrib.add_assoc]
    · rw [if_neg hn, mapContrib_foldl_procLine, if_neg (fun hc => hn hc.1),
        Contrib.add_zero]
  · rw [if_neg hr, mapContrib_foldl_procLine, if_neg (fun hc => hr hc.2), Contrib.add_zero]

theorem mapContrib_buildProductMap (now : JSDate) (invs : List Invoice) (name : String) :
    mapContrib (buildProductMap now invs) name =
      Contrib.sum (invs.map (fun i => invContrib now i name)) := by
  unfold buildProductMap
  suffices h : ∀ m, mapContrib (invs.foldl (procInvoice now) m) name =
      (mapContrib m name).add (Contrib.sum (invs.map (fun i => invContrib now i name))) by
    rw [h []]
    show (Contrib.zero).add _ = _
    rw [Contrib.zero_add]
  induction invs with
  | nil =>
    intro m
    show mapContrib m name = (mapContrib m name).add Contrib.zero
    rw [Contrib.add_zero]
  | cons i is ih =>
    intro m
    show mapContrib (is.foldl _ (procInvoice now m i)) name = _
    rw [ih, mapContrib_procInvoice, Contrib.add_assoc]
    rfl

/-- C9 counterexample: the invoice `c9inv` has two line items for product `A`
(amounts 5 and 0), yet product `A` is published with exactly one counted
occurrence and commission 1 — the zero-amount line contributed nothing,
contradicting "every line item contributes exactly one purchase occurrence".
-/
theorem C9_line_item_counterexample :
    ((clientAnalytics [c9inv] "c" .m6 c9now).productAnalysis.map
      (fun x => (x.name, x.invoiceCount, x.totalQuantity, x.totalCommission)) =
      [("A", 1, 1, (1 : ℚ))])
    ∧ c9inv.products.length = 2 := by
  refine ⟨?_, rfl⟩
  norm_num [clientAnalytics, filteredInvoices, startDateFor, subMonths, monthIndex,
    startOfMonth, endOfMonth, daysInMonth, isLeapYear, dateLe, dateLt, isWithinInterval,
    sumBy, getGrowthForPeriod, buildProductMap, procInvoice, procLine, updateAssoc,
    emptyAcc, lineUpd, newerDate, stableSort, stableInsert, salesLe, invoiceDateLe,
    finalize, growthRule, avgDaysBetween, jsRound, differenceInDays, toDayNumber,
    daysBeforeMonth, c9inv, c9now]

/-- C9 (amended): for every product key, the accumulated figures (sales,
commission, occurrence counts and monthly sub-sums) over the window-filtered
invoices equal the sum of one per-invoice contribution each: every line item
with a strictly positive amount contributes exactly one occurrence, its
amount and its commission (a line item with amount ≤ 0 contributes nothing),
and an invoice with `rest_amount > 0` additionally contributes one
occurrence, its `rest_amount` and its `rest_commission` under the key
`Resto General`. -/
theorem C9_contribution_amended (invs : List Invoice) (c : String) (p : PeriodFilter)
    (now : JSDate) (name : String) :
    mapContrib (buildProductMap now (filteredInvoices invs c p now)) name =
      Contrib.sum ((filteredInvoices invs c p now).map (fun i => invContrib now i name)) :=
  mapContrib_buildProductMap now (filteredInvoices invs c p now) name


theorem qsum_cons (x : ℚ) (l : List ℚ) : qsum (x :: l) = x + qsum l := rfl

theorem Contrib_sum_curMonth (l : List Contrib) :
    (Contrib.sum l).curMonth = qsum (l.map (fun c => c.curMonth)) := by
  induction l with
  | nil => rfl
  | cons x xs ih =>
    show (x.add (Contrib.sum xs)).curMonth = qsum _
    rw [List.map_cons, qsum_cons, ← ih]
    rfl

theorem Contrib_sum_prevMonth (l : List Contrib) :
    (Contrib.sum l).prevMonth = qsum (l.map (fun c => c.prevMonth)) := by
  induction l with
  | nil => rfl
  | cons x xs ih =>
    show (x.add (Contrib.sum xs)).prevMonth = qsum _
    rw [List.map_cons, qsum_cons, ← ih]
    rfl

theorem qsum_filter_eq (f : Invoice → ℚ) (pr : Invoice → Bool) (l : List Invoice)
    (h : ∀ i ∈ l, pr i = false → f i = 0) :
    qsum ((l.filter pr).map f) = qsum (l.map f) := by
  induction l with
  | nil => rfl
  | cons i is ih =>
    have hs : ∀ j ∈ is, pr j = false → f j = 0 :=
      fun j hj => h j (List.mem_cons_of_mem _ hj)
    by_cases hp : pr i = true
    · simp [List.filter_cons, hp, qsum_cons, ih hs]
    · have hpf : pr i = false := by simpa using hp
      have hf : f i = 0 := h i (List.mem_cons_self i is) hpf
      simp [List.filter_cons, hpf, qsum_cons, hf, ih hs]

theorem within_month_fields (d x : JSDate)
    (h : isWithinInterval d (startOfMonth x) (endOfMonth x) = true) :
    d.year = x.year ∧ d.month = x.month := by
  simp only [isWithinInterval, dateLe, startOfMonth, endOfMonth, Bool.and_eq_true,
    Bool.or_eq_true, decide_eq_true_eq] at h
  omega

theorem linesContrib_curMonth_zero (isPrev : Bool) (name : String) (ps : List LineItem) :
    (linesContrib false isPrev name ps).curMonth = 0 := by
  induction ps with
  | nil => rfl
  | cons q qs ih =>
    simp only [linesContrib]
    by_cases hc : q.product_name = name ∧ 0 < q.amount
    · simp only [if_pos hc, Contrib.add, lineContrib]
      simpa using ih
    · simp only [if_neg hc, Contrib.add, Contrib.zero]
      simpa using ih

theorem linesContrib_prevMonth_zero (isCur : Bool) (name : String) (ps : List LineItem) :
    (linesContrib isCur false name ps).prevMonth = 0 := by
  induction ps with
  | nil => rfl
  | cons q qs ih =>
    simp only [linesContrib]
    by_cases hc : q.product_name = name ∧ 0 < q.amount
    · simp only [if_pos hc, Contrib.add, lineContrib]
      simpa using ih
    · simp only [if_neg hc, Contrib.add, Contrib.zero]
      simpa using ih

theorem invContrib_curMonth_zero (now : JSDate) (inv : Invoice) (name : String)
    (h : isWithinInterval inv.invoice_date (startOfMonth now) (endOfMonth now) = false) :
    (invContrib now inv name).curMonth = 0 := by
  simp only [invContrib, h]
  by_cases hc : name = "Resto General" ∧ 0 < inv.rest_amount
  · simp only [if_pos hc, Contrib.add, lineContrib]
    simp [linesContrib_curMonth_zero]
  · simp only [if_neg hc, Contrib.add, Contrib.zero]
    simp [linesContrib_curMonth_zero]

theorem invContrib_prevMonth_zero (now : JSDate) (inv : Invoice) (name : String)
    (h : isWithinInterval inv.invoice_date (startOfMonth (subMonths now 1))
      (endOfMonth (subMonths now 1)) = false) :
    (invContrib now inv name).prevMonth = 0 := by
  simp only [invContrib, h]
  by_cases hc : name = "Resto General" ∧ 0 < inv.rest_amount
  · simp only [if_pos hc, Contrib.add, lineContrib]
    simp [linesContrib_prevMonth_zero]
  · simp only [if_neg hc, Contrib.add, Contrib.zero]
    simp [linesContrib_prevMonth_zero]

theorem months_within_startDate (now : JSDate) (hv : validMonth now) (k : Int)
    (hk : 2 ≤ k) (d : JSDate)
    (h : isWithinInterval d (startOfMonth now) (endOfMonth now) = true
       ∨ isWithinInterval d (startOfMonth (subMonths now 1))
           (endOfMonth (subMonths now 1)) = true) :
    dateLe (subMonths now k) d = true := by
  obtain ⟨hv1, hv2⟩ := hv
  have h1 := subMonths_month_range now k
  have h2 := monthIndex_subMonths now k
  simp only [monthIndex] at h2
  rcases h with hc | hp
  · obtain ⟨hy, hm⟩ := within_month_fields d now hc
    simp only [dateLe, Bool.or_eq_true, Bool.and_eq_true, decide_eq_true_eq]
    omega
  · obtain ⟨hy, hm⟩ := within_month_fields d (subMonths now 1) hp
    have h1b := subMonths_month_range now 1
    have h2b := monthIndex_subMonths now 1
    simp only [monthIndex] at h2b
    simp only [dateLe, Bool.or_eq_true, Bool.and_eq_true, decide_eq_true_eq]
    omega

theorem invContrib_months_zero_of_before (now : JSDate) (name : String)
    (hv : validMonth now) (k : Int) (hk : 2 ≤ k) (i : Invoice)
    (hf : dateLe (subMonths now k) i.invoice_date = false) :
    (invContrib now i name).curMonth = 0 ∧ (invContrib now i name).prevMonth = 0 := by
  constructor
  · apply invContrib_curMonth_zero
    by_contra hcc
    have hct : isWithinInterval i.invoice_date (startOfMonth now) (endOfMonth now) = true := by
      simpa using hcc
    have hd := months_within_startDate now ⟨hv.1, hv.2⟩ k hk i.invoice_date (Or.inl hct)
    rw [hd] at hf
    cases hf
  · apply invContrib_prevMonth_zero
    by_contra hcc
    have hct : isWithinInterval i.invoice_date (startOfMonth (subMonths now 1))
        (endOfMonth (subMonths now 1)) = true := by
      simpa using hcc
    have hd := months_within_startDate now ⟨hv.1, hv.2⟩ k hk i.invoice_date (Or.inr hct)
    rw [hd] at hf
    cases hf

theorem mapContrib_months (now : JSDate) (l : List Invoice) (name : String) :
    (mapContrib (buildProductMap now l) name).curMonth =
      qsum (l.map (fun i => (invContrib now i name).curMonth))
    ∧ (mapContrib (buildProductMap now l) name).prevMonth =
      qsum (l.map (fun i => (invContrib now i name).prevMonth)) := by
  rw [mapContrib_buildProductMap]
  constructor
  · rw [Contrib_sum_curMonth, List.map_map]
    rfl
  · rw [Contrib_sum_prevMonth, List.map_map]
    rfl

theorem productMonthSums_base (invs : List Invoice) (c : String) (now : JSDate)
    (name : String) (p : PeriodFilter) (hv : validMonth now)
    (hp : p = .m3 ∨ p = .m6 ∨ p = .y1 ∨ p = .all) :
    productMonthSums invs c p now name =
      (qsum ((invs.filter (fun i => i.client_id == c)).map
        (fun i => (invContrib now i name).curMonth)),
       qsum ((invs.filter (fun i => i.client_id == c)).map
        (fun i => (invContrib now i name).prevMonth))) := by
  have key : ∀ (k : Int), 2 ≤ k →
      qsum ((((invs.filter (fun i => i.client_id == c)).filter
          (fun i => dateLe (subMonths now k) i.invoice_date)).map
          (fun i => (invContrib now i name).curMonth))) =
        qsum ((invs.filter (fun i => i.client_id == c)).map
          (fun i => (invContrib now i name).curMonth))
      ∧ qsum ((((invs.filter (fun i => i.client_id == c)).filter
          (fun i => dateLe (subMonths now k) i.invoice_date)).map
          (fun i => (invContrib now i name).prevMonth))) =
        qsum ((invs.filter (fun i => i.client_id == c)).map
          (fun i => (invContrib now i name).prevMonth)) := by
    intro k hk
    constructor
    · exact qsum_filter_eq _ _ _
        (fun i _ hf => (invContrib_months_zero_of_before now name hv k hk i hf).1)
    · exact qsum_filter_eq _ _ _
        (fun i _ hf => (invContrib_months_zero_of_before now name hv k hk i hf).2)
  rcases hp with rfl | rfl | rfl | rfl
  · have hm := mapContrib_months now ((invs.filter (fun i => i.client_id == c)).filter
      (fun i => dateLe (subMonths now 3) i.invoice_date)) name
    have hcp := key 3 (by norm_num)
    show ((mapContrib (buildProductMap now (filteredInvoices invs c .m3 now)) name).curMonth,
          (mapContrib (buildProductMap now (filteredInvoices invs c .m3 now)) name).prevMonth) = _
    rw [show filteredInvoices invs c .m3 now = (invs.filter (fun i => i.client_id == c)).filter
          (fun i => dateLe (subMonths now 3) i.invoice_date) from rfl]
    rw [hm.1, hm.2, hcp.1, hcp.2]
  · have hm := mapContrib_months now ((invs.filter (fun i => i.client_id == c)).filter
      (fun i => dateLe (subMonths now 6) i.invoice_date)) name
    have hcp := key 6 (by norm_num)
    show ((mapContrib (buildProductMap now (filteredInvoices invs c .m6 now)) name).curMonth,
          (mapContrib (buildProductMap now (filteredInvoices invs c .m6 now)) name).prevMonth) = _
    rw [show filteredInvoices invs c .m6 now = (invs.filter (fun i => i.client_id == c)).filter
          (fun i => dateLe (subMonths now 6) i.invoice_date) from rfl]
    rw [hm.1, hm.2, hcp.1, hcp.2]
  · have hm := mapContrib_months now ((invs.filter (fun i => i.client_id == c)).filter
      (fun i => dateLe (subMonths now 12) i.invoice_date)) name
    have hcp := key 12 (by norm_num)
    show ((mapContrib (buildProductMap now (filteredInvoices invs c .y1 now)) name).curMonth,
          (mapContrib (buildProductMap now (filteredInvoices invs c .y1 now)) name).prevMonth) = _
    rw [show filteredInvoices invs c .y1 now = (invs.filter (fun i => i.client_id == c)).filter
          (fun i => dateLe (subMonths now 12) i.invoice_date) from rfl]
    rw [hm.1, hm.2, hcp.1, hcp.2]
  · have hm := mapContrib_months now (invs.filter (fun i => i.client_id == c)) name
    show ((mapContrib (buildProductMap now (filteredInvoices invs c .all now)) name).curMonth,
          (mapContrib (buildProductMap now (filteredInvoices invs c .all now)) name).prevMonth) = _
    rw [show filteredInvoices invs c .all now = invs.filter (fun i => i.client_id == c) from rfl]
    rw [hm.1, hm.2]

/-- C4 counterexample: for the single invoice of 2024-02-05 and
`now = 2024-03-15`, the per-product month sums of product `A` are `(0, 0)`
under the `1m` token (the invoice falls before `subMonths now 1 = 2024-02-15`
and is dropped by the outer window) but `(0, 100)` under the `3m` token — the
sums are not identical for every choice of period token. -/
theorem C4_window_dependence_counterexample :
    productMonthSums [c4inv] "c" .m1 c4now "A" = (0, 0)
    ∧ productMonthSums [c4inv] "c" .m3 c4now "A" = (0, 100)
    ∧ productMonthSums [c4inv] "c" .m1 c4now "A" ≠ productMonthSums [c4inv] "c" .m3 c4now "A" := by
  have e1 : productMonthSums [c4inv] "c" .m1 c4now "A" = (0, 0) := by
    norm_num [productMonthSums, mapContrib, assocFind, buildProductMap, procInvoice,
      procLine, updateAssoc, lineUpd, emptyAcc, contribOfAcc, Contrib.zero,
      filteredInvoices, startDateFor, subMonths, monthIndex, daysInMonth, isLeapYear,
      dateLe, isWithinInterval, startOfMonth, endOfMonth, c4inv, c4now]
  have e2 : productMonthSums [c4inv] "c" .m3 c4now "A" = (0, 100) := by
    norm_num [productMonthSums, mapContrib, assocFind, buildProductMap, procInvoice,
      procLine, updateAssoc, lineUpd, emptyAcc, contribOfAcc, Contrib.zero,
      filteredInvoices, startDateFor, subMonths, monthIndex, daysInMonth, isLeapYear,
      dateLe, isWithinInterval, startOfMonth, endOfMonth, c4inv, c4now]
  refine ⟨e1, e2, ?_⟩
  rw [e1, e2]
  intro h
  exact absurd (congrArg Prod.snd h) (by norm_num)

/-- C4 (amended): the per-product current-month and previous-month sums are
identical across the period tokens `3m`, `6m`, `1y` and `all` (each of those
windows contains the whole current and previous calendar months), for every
calendar-valid reference `now`, invoice set and product key; the `1m` token is
excluded, since its window start `subMonths now 1` can cut off part of the
previous calendar month. -/
theorem C4_month_sums_amended (invs : List Invoice) (c : String) (now : JSDate)
    (name : String) (t1 t2 : PeriodFilter) (hv : validMonth now)
    (h1 : t1 = .m3 ∨ t1 = .m6 ∨ t1 = .y1 ∨ t1 = .all)
    (h2 : t2 = .m3 ∨ t2 = .m6 ∨ t2 = .y1 ∨ t2 = .all) :
    productMonthSums invs c t1 now name = productMonthSums invs c t2 now name := by
  rw [productMonthSums_base invs c now name t1 hv h1,
    productMonthSums_base invs c now name t2 hv h2]

/-- C4 witness: the `3m` and `all` tokens agree on the concrete input. -/
theorem C4_month_sums_amended_witness :
    productMonthSums [c4inv] "c" .m3 c4now "A" = productMonthSums [c4inv] "c" .all c4now "A" :=
  C4_month_sums_amended [c4inv] "c" c4now "A" .m3 .all (by exact ⟨by decide, by decide⟩)
    (Or.inl rfl) (Or.inr (Or.inr (Or.inr rfl)))

end CRM
